import Mathlib

/-!
# Prompt Companion — Conversation Session Controller, shallow embedding

A shallow embedding of `src/frontend/src/App.js` (the stateful interface
variant of the repository).  React state is a record (`AppState`); each
event handler (`handleSubmit`, `clearChat`, section selection, the mount
load effect) is a pure function on that record.  The remote call's
outcome is passed in explicitly (`RemoteOutcome`), so the asynchronous
handler is modelled as a single function from pre-state and outcome to
post-state, which is faithful because no other operation interleaves
with a single `handleSubmit` in the claims considered.

JavaScript specifics modelled explicitly:
* a field that may hold the JS value `undefined` is an `Option`
  (`Message.content` is `Option String`, because the code stores
  `data.response` without checking it is present);
* string interpolation of `undefined` yields the text `"undefined"`
  (`jsStr`);
* object spread `{...prev, [id]: v}` is a pointwise function update;
* `localStorage` is modelled with its deserialized content
  (`JSON.stringify`/`JSON.parse` round-trip elided, serialization being
  injective on the values stored);
* `useEffect` callbacks run after the render commit, not inside the
  event handler that triggered the state change; handlers and the
  persistence effects are therefore separate functions, composed by
  `commitEffects`;
* `String.trim` stands in for JS `trim()` (both strip surrounding
  whitespace; the exact whitespace alphabet differs immaterially here).
-/

/-- Message role: the code only ever stores `'user'` or `'assistant'`. -/
inductive Role where
  | user
  | assistant
deriving DecidableEq, Repr

/-- A chat message as stored in `chatHistory` (App.js lines 160, 187, 199):
`{ role, content, timestamp }`.  `content` is `Option String` because on the
non-redirect success path the code stores `data.response` unchecked, which is
the JS `undefined` when the payload lacks the field. -/
structure Message where
  role : Role
  content : Option String
  timestamp : String
deriving DecidableEq, Repr

/-- A topical section from the catalog (App.js lines 9–15). -/
structure Section where
  id : String
  name : String
  color : String
  examples : List String
deriving DecidableEq, Repr

/-- The fixed section catalog (App.js lines 9–15). -/
def sections : List Section :=
  [ ⟨"health", "Health", "bg-green-500",
      ["How to boost immunity?", "Best exercises for beginners", "Healthy meal ideas"]⟩,
    ⟨"banking", "Banking", "bg-yellow-500",
      ["Investment tips", "Credit card advice", "Saving strategies"]⟩,
    ⟨"general", "General", "bg-blue-500",
      ["Explain quantum physics", "Travel recommendations", "Cooking tips"]⟩,
    ⟨"movies", "Movies", "bg-purple-500",
      ["Best sci-fi movies", "Movie recommendations", "Film analysis"]⟩,
    ⟨"music", "Music", "bg-pink-500",
      ["Music recommendations", "Artist analysis", "Genre exploration"]⟩ ]

/-- The `chatHistory` React state: a JS object mapping section ids to message
arrays.  `none` models an absent key, `some l` a present key (even when `l`
is empty: `{...prev, [id]: []}` keeps the key present). -/
def HistMap : Type := String → Option (List Message)

/-- The transcript the UI and exports read for a section:
`chatHistory[id] || []` (App.js lines 98, 116, 398). -/
def histAt (h : HistMap) (id : String) : List Message :=
  (h id).getD []

/-- Object-spread append `{...prev, [id]: [...(prev[id] || []), ...ms]}`
(App.js lines 161–164, 188–191, 200–203). -/
def histAppend (h : HistMap) (id : String) (ms : List Message) : HistMap :=
  fun k => if k = id then some ((h id).getD [] ++ ms) else h k

/-- The React state of `App` (App.js lines 18–26), restricted to the fields
the session controller reads or writes.  `result`, `toast` and `theme` are
presentation-only and carry no transcript or control-flow information used
by any claim. -/
structure AppState where
  currentSection : Option Section
  prompt : String
  isLoading : Bool
  isTyping : Bool
  error : Option String
  chatHistory : HistMap

/-- The parsed success payload.  `redirect` is the truthiness of
`data.redirect`; `sectionId` and `response` are `none` when the field is
absent (JS `undefined`). -/
structure RespData where
  redirect : Bool
  sectionId : Option String
  response : Option String
deriving DecidableEq, Repr

/-- Outcome of the `fetch` to `/api/ask` as the `try` block observes it
(App.js lines 167–177). -/
inductive RemoteOutcome where
  | transportError                 -- `fetch` itself rejects
  | httpError                      -- `res.ok` is false (line 173)
  | invalidJson                    -- `res.json()` rejects (line 177)
  | ok (data : RespData)           -- parsed JSON payload

/-- JS `String.prototype.trim()`: strip leading and trailing whitespace.
Defined on the character list so the kernel can evaluate it on literals
(`Char.isWhitespace` stands in for the JS whitespace alphabet; the
difference is immaterial to every property below). -/
def jsTrim (s : String) : String :=
  ⟨((s.data.dropWhile Char.isWhitespace).reverse.dropWhile Char.isWhitespace).reverse⟩

/-- The error message set on every caught exception (App.js line 213). -/
def connFailMsg : String :=
  "Failed to connect to the server. Make sure the backend is running!"

/-- Lookup `sections.find(s => s.id === data.section)` (App.js line 182); `none`
both when the field is absent and when no catalog entry matches. -/
def findSection (tid : Option String) : Option Section :=
  tid.bind (fun t => sections.find? (fun c => c.id = t))

/-- The `finally` block (App.js lines 214–217). -/
def finallyStep (s : AppState) : AppState :=
  { s with isLoading := false, isTyping := false }

/-- Result of one `handleSubmit` invocation: the settled React state and
whether a remote request was dispatched during the call. -/
structure SubmitResult where
  state : AppState
  fetched : Bool

/-- Handler `handleSubmit` (App.js lines 150–218), as a function of the pre-state,
the two timestamps taken by `new Date().toISOString()` (lines 160 and
187/199), and the remote outcome.  Control flow, in source order:
* line 152: `if (!prompt.trim()) return;` — early exit, no side effect;
* lines 154–164: set flags, clear the prompt, optimistic user append;
* line 167: the fetch is dispatched (`fetched := true` from here on);
* lines 173–177: non-ok status or unparseable body throws, landing in the
  `catch` (line 213) which sets the error; `finally` releases the flags;
* lines 180–196 (redirect): `setCurrentSection(newSection)` runs first
  (line 183); when `sections.find` returned `undefined` the template
  literal on line 184 then throws `TypeError` on `newSection.name`, so
  control reaches the `catch` with the section already set to `undefined`
  and no assistant message appended; otherwise lines 188–191 append
  `[userMessage, aiMessage]` to the target section;
* lines 197–209 (no redirect): append `[userMessage, aiMessage]` to the
  current section.
The `currentSection = null` branch is unreachable from the UI (the form
only renders with a section active); it is modelled as stopping before
the fetch. -/
def handleSubmit (ts1 ts2 : String) (outcome : RemoteOutcome) (s : AppState) :
    SubmitResult :=
  if jsTrim s.prompt = "" then ⟨s, false⟩
  else
    match s.currentSection with
    | none => ⟨{ s with isLoading := true, isTyping := true, error := none, prompt := "" }, false⟩
    | some sec =>
      let userMsg : Message := ⟨Role.user, some s.prompt, ts1⟩
      let s1 : AppState :=
        { s with isLoading := true, isTyping := true, error := none, prompt := "",
                 chatHistory := histAppend s.chatHistory sec.id [userMsg] }
      match outcome with
      | RemoteOutcome.transportError =>
          ⟨finallyStep { s1 with error := some connFailMsg }, true⟩
      | RemoteOutcome.httpError =>
          ⟨finallyStep { s1 with error := some connFailMsg }, true⟩
      | RemoteOutcome.invalidJson =>
          ⟨finallyStep { s1 with error := some connFailMsg }, true⟩
      | RemoteOutcome.ok data =>
          if data.redirect then
            match findSection data.sectionId with
            | none =>
                ⟨finallyStep { s1 with currentSection := none, error := some connFailMsg }, true⟩
            | some newSec =>
                let aiMsg : Message := ⟨Role.assistant, data.response, ts2⟩
                ⟨finallyStep
                  { s1 with currentSection := some newSec,
                            chatHistory :=
                              histAppend s1.chatHistory newSec.id [userMsg, aiMsg] }, true⟩
          else
            let aiMsg : Message := ⟨Role.assistant, data.response, ts2⟩
            ⟨finallyStep
              { s1 with chatHistory := histAppend s1.chatHistory sec.id [userMsg, aiMsg] }, true⟩

/-- The "general" catalog entry. -/
def generalSec : Section := ⟨"general", "General", "bg-blue-500",
  ["Explain quantum physics", "Travel recommendations", "Cooking tips"]⟩

/-- The "banking" catalog entry. -/
def bankingSec : Section := ⟨"banking", "Banking", "bg-yellow-500",
  ["Investment tips", "Credit card advice", "Saving strategies"]⟩

theorem findSection_banking : findSection (some "banking") = some bankingSec := by
  decide

/-- C1: redirect correctness.  A submission made while the active section is
"general" with prompt `X`, answered by `{redirect: true, section: "banking",
response: Y}`, ends with: the "banking" transcript extended by exactly
`(user, X)` then `(assistant, Y)` (so those are its last two entries); the
"general" transcript extended by exactly `(user, X)` (so that user message is
its last entry, with no assistant entry after it); and the active section
equal to "banking". -/
theorem redirect_correctness (s : AppState) (X Y ts1 ts2 : String)
    (hsec : s.currentSection = some generalSec)
    (hp : s.prompt = X) (hne : jsTrim X ≠ "") :
    let r := handleSubmit ts1 ts2
      (RemoteOutcome.ok ⟨true, some "banking", some Y⟩) s
    histAt r.state.chatHistory "banking" =
        histAt s.chatHistory "banking" ++
          [⟨Role.user, some X, ts1⟩, ⟨Role.assistant, some Y, ts2⟩] ∧
    histAt r.state.chatHistory "general" =
        histAt s.chatHistory "general" ++ [⟨Role.user, some X, ts1⟩] ∧
    r.state.currentSection = some bankingSec := by
  subst hp
  simp only [handleSubmit, hsec, if_neg hne, findSection_banking]
  refine ⟨?_, ?_, rfl⟩
  · simp [histAt, histAppend, finallyStep, bankingSec, generalSec]
  · simp [histAt, histAppend, finallyStep, bankingSec, generalSec]

/-- Witness for `redirect_correctness` at a concrete state. -/
theorem redirect_correctness_witness :
    let s0 : AppState :=
      ⟨some generalSec, "hello", false, false, none, fun _ => none⟩
    let r := handleSubmit "t1" "t2"
      (RemoteOutcome.ok ⟨true, some "banking", some "Y0"⟩) s0
    histAt r.state.chatHistory "banking" =
        histAt s0.chatHistory "banking" ++
          [⟨Role.user, some "hello", "t1"⟩, ⟨Role.assistant, some "Y0", "t2"⟩] ∧
    histAt r.state.chatHistory "general" =
        histAt s0.chatHistory "general" ++ [⟨Role.user, some "hello", "t1"⟩] ∧
    r.state.currentSection = some bankingSec :=
  redirect_correctness _ "hello" "Y0" "t1" "t2" rfl rfl (by decide)

/-- The empty `chatHistory` object (initial state, App.js line 25). -/
def emptyHist : HistMap := fun _ => none

/-- C3: optimistic durability under failure.  When the remote call fails
(transport error, non-ok status, or an unparseable body), the originating
section's transcript ends with the optimistic user message, every other
transcript is untouched (so no assistant message has been appended
anywhere), and both busy flags are released by the `finally` block. -/
theorem failure_keeps_user_message (s : AppState) (sec : Section)
    (q ts1 ts2 : String) (out : RemoteOutcome)
    (hsec : s.currentSection = some sec) (hp : s.prompt = q)
    (hne : jsTrim q ≠ "")
    (hout : out = RemoteOutcome.transportError ∨ out = RemoteOutcome.httpError ∨
            out = RemoteOutcome.invalidJson) :
    let r := handleSubmit ts1 ts2 out s
    histAt r.state.chatHistory sec.id =
        histAt s.chatHistory sec.id ++ [⟨Role.user, some q, ts1⟩] ∧
    (∀ id, id ≠ sec.id → r.state.chatHistory id = s.chatHistory id) ∧
    r.state.isLoading = false ∧ r.state.isTyping = false := by
  subst hp
  rcases hout with h | h | h <;> subst h <;>
    simp only [handleSubmit, hsec, if_neg hne, finallyStep] <;>
    refine ⟨by simp [histAt, histAppend], fun id hid => ?_, trivial, trivial⟩ <;>
    simp [histAppend, hid]

/-- Witness for `failure_keeps_user_message` at a concrete state. -/
theorem failure_keeps_user_message_witness :
    let s0 : AppState := ⟨some generalSec, "hi", false, false, none, emptyHist⟩
    let r := handleSubmit "t1" "t2" RemoteOutcome.transportError s0
    histAt r.state.chatHistory "general" =
        histAt s0.chatHistory "general" ++ [⟨Role.user, some "hi", "t1"⟩] ∧
    (∀ id, id ≠ "general" → r.state.chatHistory id = s0.chatHistory id) ∧
    r.state.isLoading = false ∧ r.state.isTyping = false :=
  failure_keeps_user_message _ generalSec "hi" "t1" "t2" _ rfl rfl (by decide)
    (Or.inl rfl)

theorem find?_eq_none_of_not_mem_ids (tid : String)
    (h : tid ∉ sections.map Section.id) :
    sections.find? (fun c => c.id = tid) = none := by
  rw [List.find?_eq_none]
  intro c hc
  simp only [decide_eq_true_eq]
  intro hid
  exact h (List.mem_map.mpr ⟨c, hc, hid⟩)

/-- C10: redirect to an unknown section id.  `sections.find` yields
`undefined`, `setCurrentSection(undefined)` has already run when the toast
template literal throws `TypeError` on `newSection.name`, and the `catch`
sets the generic connection-failure error.  Hence: only the optimistic user
message was appended (it stays last in the originating section, and no other
transcript changed), the active section is unset, and the generic error is
surfaced. -/
theorem unknown_redirect_errors (s : AppState) (sec : Section)
    (q tid ts1 ts2 : String) (resp : Option String)
    (hsec : s.currentSection = some sec) (hp : s.prompt = q)
    (hne : jsTrim q ≠ "") (htid : tid ∉ sections.map Section.id) :
    let r := handleSubmit ts1 ts2 (RemoteOutcome.ok ⟨true, some tid, resp⟩) s
    histAt r.state.chatHistory sec.id =
        histAt s.chatHistory sec.id ++ [⟨Role.user, some q, ts1⟩] ∧
    (∀ id, id ≠ sec.id → r.state.chatHistory id = s.chatHistory id) ∧
    r.state.currentSection = none ∧
    r.state.error = some connFailMsg := by
  subst hp
  have hfind : findSection (some tid) = none := by
    simp [findSection, find?_eq_none_of_not_mem_ids tid htid]
  simp only [handleSubmit, hsec, if_neg hne, hfind, finallyStep]
  refine ⟨by simp [histAt, histAppend], fun id hid => ?_, rfl, rfl⟩
  simp [histAppend, hid]

/-- Witness for `unknown_redirect_errors` at a concrete state. -/
theorem unknown_redirect_errors_witness :
    let s0 : AppState := ⟨some generalSec, "hi", false, false, none, emptyHist⟩
    let r := handleSubmit "t1" "t2"
      (RemoteOutcome.ok ⟨true, some "cooking", some "Y0"⟩) s0
    histAt r.state.chatHistory "general" =
        histAt s0.chatHistory "general" ++ [⟨Role.user, some "hi", "t1"⟩] ∧
    (∀ id, id ≠ "general" → r.state.chatHistory id = s0.chatHistory id) ∧
    r.state.currentSection = none ∧
    r.state.error = some connFailMsg :=
  unknown_redirect_errors _ generalSec "hi" "cooking" "t1" "t2" (some "Y0")
    rfl rfl (by decide) (by decide)

/-- The submit button's `disabled` attribute, App.js line 388:
`isLoading || !prompt.trim()`. -/
def submitDisabled (s : AppState) : Bool :=
  s.isLoading || (jsTrim s.prompt == "")

/-- C2 counterexample.  A state with a request pending (`isLoading = true`)
and a non-empty prompt: invoking `handleSubmit` is *not* rejected — a remote
call is dispatched and the transcript changes.  The handler itself performs
no pending-request check (App.js line 152 tests only the prompt). -/
theorem pending_submit_not_rejected :
    let s0 : AppState := ⟨some generalSec, "hi", true, false, none, emptyHist⟩
    let r := handleSubmit "t1" "t2" RemoteOutcome.transportError s0
    s0.isLoading = true ∧ r.fetched = true ∧
    r.state.chatHistory "general" ≠ s0.chatHistory "general" := by
  decide

/-- C2 amended: the handler rejects empty/whitespace-only queries before any
side effect (App.js line 152), and submission while a request is pending is
prevented by the UI alone — the submit button is disabled whenever
`isLoading` is true (App.js line 388); the handler itself has no pending
check. -/
theorem empty_rejected_and_pending_blocked_by_ui (s : AppState)
    (ts1 ts2 : String) (out : RemoteOutcome) :
    (jsTrim s.prompt = "" → handleSubmit ts1 ts2 out s = ⟨s, false⟩) ∧
    (s.isLoading = true → submitDisabled s = true) := by
  constructor
  · intro h
    simp [handleSubmit, h]
  · intro h
    simp [submitDisabled, h]

/-- Witness for `empty_rejected_and_pending_blocked_by_ui`: a whitespace-only
prompt while a request is pending. -/
theorem empty_rejected_and_pending_blocked_by_ui_witness :
    let s1 : AppState := ⟨some generalSec, " ", true, false, none, emptyHist⟩
    handleSubmit "t1" "t2" RemoteOutcome.transportError s1 = ⟨s1, false⟩ ∧
    submitDisabled s1 = true :=
  ⟨(empty_rejected_and_pending_blocked_by_ui _ "t1" "t2"
      RemoteOutcome.transportError).1 (by decide),
   (empty_rejected_and_pending_blocked_by_ui _ "t1" "t2"
      RemoteOutcome.transportError).2 rfl⟩

/-- Handler `clearChat` (App.js lines 84–94): with a section active, replace its
transcript with `[]` via object spread (the key stays present); with no
section active, the history is untouched.  The toast and `setResult(null)`
are presentation-only. -/
def clearChat (s : AppState) : AppState :=
  match s.currentSection with
  | some sec =>
      { s with chatHistory := fun k => if k = sec.id then some [] else s.chatHistory k }
  | none => s

/-- The "movies" catalog entry. -/
def moviesSec : Section := ⟨"movies", "Movies", "bg-purple-500",
  ["Best sci-fi movies", "Movie recommendations", "Film analysis"]⟩

/-- C8: clear is local.  Clearing the active section leaves its entry
present in the store, mapped to the empty transcript, and leaves every
other section's transcript exactly unchanged. -/
theorem clear_is_local (s : AppState) (sec : Section)
    (h : s.currentSection = some sec) :
    (clearChat s).chatHistory sec.id = some [] ∧
    (∀ id, id ≠ sec.id → (clearChat s).chatHistory id = s.chatHistory id) := by
  simp only [clearChat, h]
  exact ⟨by simp, fun id hid => by simp [hid]⟩

/-- Witness for `clear_is_local`: clearing "movies" with entries present. -/
theorem clear_is_local_witness :
    let m0 : Message := ⟨Role.user, some "hi", "t0"⟩
    let s0 : AppState :=
      ⟨some moviesSec, "", false, false, none,
        fun k => if k = "movies" then some [m0] else
                 if k = "health" then some [m0] else none⟩
    (clearChat s0).chatHistory "movies" = some [] ∧
    (∀ id, id ≠ "movies" → (clearChat s0).chatHistory id = s0.chatHistory id) :=
  clear_is_local _ moviesSec rfl

theorem histAt_histAppend_pre (h : HistMap) (id tgt : String)
    (ms : List Message) :
    histAt h id <+: histAt (histAppend h tgt ms) id := by
  by_cases e : id = tgt
  · subst e
    simp [histAt, histAppend]
  · simp [histAt, histAppend, e]

theorem histAt_submit_pre (ts1 ts2 : String) (out : RemoteOutcome)
    (s : AppState) (id : String) :
    histAt s.chatHistory id <+:
      histAt (handleSubmit ts1 ts2 out s).state.chatHistory id := by
  unfold handleSubmit
  by_cases hq : jsTrim s.prompt = ""
  · simp [hq]
  · rw [if_neg hq]
    cases hcs : s.currentSection with
    | none => exact List.prefix_rfl
    | some sec =>
      cases out with
      | transportError => exact histAt_histAppend_pre _ _ _ _
      | httpError => exact histAt_histAppend_pre _ _ _ _
      | invalidJson => exact histAt_histAppend_pre _ _ _ _
      | ok data =>
        by_cases hr : data.redirect
        · simp only [hr, if_true]
          cases hfind : findSection data.sectionId with
          | none => exact histAt_histAppend_pre _ _ _ _
          | some newSec =>
            exact (histAt_histAppend_pre _ _ _ _).trans
              (histAt_histAppend_pre _ _ _ _)
        · simp only [hr, if_false]
          exact (histAt_histAppend_pre _ _ _ _).trans
            (histAt_histAppend_pre _ _ _ _)

/-- One element of a sequence of successful submissions: the prompt the user
typed, the two timestamps, and the parsed success payload. -/
structure SubmitEvent where
  q : String
  ts1 : String
  ts2 : String
  data : RespData

/-- Type the prompt (`setPrompt`, App.js line 381), then run `handleSubmit`
with a success outcome. -/
def submitStep (s : AppState) (ev : SubmitEvent) : AppState :=
  (handleSubmit ev.ts1 ev.ts2 (RemoteOutcome.ok ev.data)
    { s with prompt := ev.q }).state

/-- A whole sequence of successful submissions. -/
def runSubmits (s : AppState) (evs : List SubmitEvent) : AppState :=
  evs.foldl submitStep s

theorem histAt_submitStep_pre (s : AppState) (ev : SubmitEvent) (id : String) :
    histAt s.chatHistory id <+: histAt (submitStep s ev).chatHistory id :=
  histAt_submit_pre ev.ts1 ev.ts2 (RemoteOutcome.ok ev.data)
    { s with prompt := ev.q } id

/-- C5: append-only invariant.  Across any sequence of successful `submit`
calls, each section's transcript before the sequence is a prefix of its
transcript after it; hence its length is monotonically non-decreasing and
every previously appended message keeps its content, role, timestamp and
position. -/
theorem append_only_invariant (s : AppState) (evs : List SubmitEvent)
    (id : String) :
    histAt s.chatHistory id <+: histAt (runSubmits s evs).chatHistory id ∧
    (histAt s.chatHistory id).length ≤
      (histAt (runSubmits s evs).chatHistory id).length ∧
    ∀ i m, (histAt s.chatHistory id).get? i = some m →
      (histAt (runSubmits s evs).chatHistory id).get? i = some m := by
  have hpre : histAt s.chatHistory id <+:
      histAt (runSubmits s evs).chatHistory id := by
    induction evs generalizing s with
    | nil => exact List.prefix_rfl
    | cons ev rest ih =>
      exact (histAt_submitStep_pre s ev id).trans (ih (submitStep s ev))
  refine ⟨hpre, hpre.length_le, fun i m hm => ?_⟩
  obtain ⟨t, ht⟩ := hpre
  rw [← ht, List.get?_append]
  · exact hm
  · exact List.get?_eq_some.mp hm |>.1

/-- Witness for `append_only_invariant`: one prior message survives a
successful submission with its position and content. -/
theorem append_only_invariant_witness :
    let m0 : Message := ⟨Role.user, some "old", "t0"⟩
    let s0 : AppState :=
      ⟨some generalSec, "", false, false, none,
        fun k => if k = "general" then some [m0] else none⟩
    let evs : List SubmitEvent := [⟨"hi", "t1", "t2", ⟨false, none, some "A"⟩⟩]
    (histAt s0.chatHistory "general").length ≤
      (histAt (runSubmits s0 evs).chatHistory "general").length ∧
    (histAt (runSubmits s0 evs).chatHistory "general").get? 0 =
      some ⟨Role.user, some "old", "t0"⟩ :=
  ⟨(append_only_invariant _ _ "general").2.1,
   (append_only_invariant _ _ "general").2.2 0 _ (by decide)⟩

/-- The durable store (`localStorage`), holding the deserialized content of
its two records (App.js lines 30–31, 53, 59): the saved active-section id
and the saved transcript mapping.  `none` models an absent record. -/
structure Storage where
  savedSection : Option String
  savedChat : Option HistMap

/-- One iteration of the startup filter loop (App.js lines 41–45):
`if (parsedHistory[sec.id]) filteredHistory[sec.id] = parsedHistory[sec.id]`
(a present message array is always truthy in JS, even when empty). -/
def loadFilterStep (parsed : HistMap) (acc : HistMap) (sec : Section) : HistMap :=
  match parsed sec.id with
  | some l => fun k => if k = sec.id then some l else acc k
  | none => acc

/-- The startup filter (App.js lines 40–46): starting from `{}`, copy over
exactly the catalog sections' entries of the parsed durable mapping. -/
def loadFilter (parsed : HistMap) : HistMap :=
  sections.foldl (loadFilterStep parsed) emptyHist

/-- The mount effect (App.js lines 29–48): restore the saved section if it
still names a catalog entry, and replace `chatHistory` by the filtered
saved mapping when one is stored. -/
def loadEffect (st : Storage) (s : AppState) : AppState :=
  let s1 : AppState :=
    match st.savedSection with
    | some sid =>
      match sections.find? (fun c => c.id = sid) with
      | some sec => { s with currentSection := some sec }
      | none => s
    | none => s
  match st.savedChat with
  | some parsed => { s1 with chatHistory := loadFilter parsed }
  | none => s1

theorem loadFilterStep_eval (parsed : HistMap) (acc : HistMap) (sec : Section)
    (id : String) :
    loadFilterStep parsed acc sec id =
      if id = sec.id ∧ (parsed id).isSome then parsed id else acc id := by
  unfold loadFilterStep
  rcases hp : parsed sec.id with _ | l
  · by_cases he : id = sec.id
    · subst he
      simp [hp]
    · simp [he]
  · by_cases he : id = sec.id
    · subst he
      simp [hp]
    · simp [he]

theorem loadFold_eval (parsed : HistMap) (secs : List Section) (acc : HistMap)
    (id : String) :
    secs.foldl (loadFilterStep parsed) acc id =
      if id ∈ secs.map Section.id ∧ (parsed id).isSome then parsed id
      else acc id := by
  induction secs generalizing acc with
  | nil => simp
  | cons sec rest ih =>
    rw [List.foldl_cons, ih]
    by_cases h1 : id ∈ rest.map Section.id ∧ (parsed id).isSome
    · rw [if_pos h1, if_pos ⟨by simp [h1.1], h1.2⟩]
    · rw [if_neg h1, loadFilterStep_eval]
      by_cases h2 : id = sec.id ∧ (parsed id).isSome
      · rw [if_pos h2, if_pos ⟨by simp [h2.1], h2.2⟩]
      · rw [if_neg h2, if_neg ?_]
        rintro ⟨hmem, hp⟩
        rcases List.mem_map.mp hmem with ⟨c, hc, hcid⟩
        rcases List.mem_cons.mp hc with hceq | hcr
        · exact h2 ⟨by rw [← hcid, hceq], hp⟩
        · exact h1 ⟨List.mem_map.mpr ⟨c, hcr, hcid⟩, hp⟩

/-- C7: startup filtering.  When a durable mapping is stored, the state
loaded at mount drops every entry whose section id is not in the catalog
(so its snapshot is empty) and keeps every entry whose section id is in
the catalog exactly as stored. -/
theorem startup_filtering (st : Storage) (s : AppState) (parsed : HistMap)
    (id : String) (hchat : st.savedChat = some parsed) :
    (id ∉ sections.map Section.id →
      (loadEffect st s).chatHistory id = none ∧
      histAt (loadEffect st s).chatHistory id = []) ∧
    (id ∈ sections.map Section.id →
      (loadEffect st s).chatHistory id = parsed id) := by
  have hch : (loadEffect st s).chatHistory = loadFilter parsed := by
    unfold loadEffect
    rw [hchat]
  constructor
  · intro hnot
    have hnone : (loadEffect st s).chatHistory id = none := by
      rw [hch]
      unfold loadFilter
      rw [loadFold_eval, if_neg (fun hc => hnot hc.1)]
      rfl
    exact ⟨hnone, by simp [histAt, hnone]⟩
  · intro hmem
    rw [hch]
    unfold loadFilter
    rw [loadFold_eval]
    by_cases hp : (parsed id).isSome
    · rw [if_pos ⟨hmem, hp⟩]
    · rw [if_neg (fun hc => hp hc.2)]
      rcases hparse : parsed id with _ | l
      · rfl
      · exact absurd (by rw [hparse]; rfl) hp

/-- Witness for `startup_filtering`: a stored mapping with a "general" entry
and an entry for the removed id "stale"; after load, "stale" is dropped and
"general" is kept. -/
theorem startup_filtering_witness :
    let m0 : Message := ⟨Role.user, some "hi", "t0"⟩
    let parsed : HistMap :=
      fun k => if k = "general" then some [m0] else
               if k = "stale" then some [m0] else none
    let st : Storage := ⟨some "general", some parsed⟩
    let s0 : AppState := ⟨none, "", false, false, none, emptyHist⟩
    ((loadEffect st s0).chatHistory "stale" = none ∧
      histAt (loadEffect st s0).chatHistory "stale" = []) ∧
    (loadEffect st s0).chatHistory "general" = parsed "general" :=
  ⟨(startup_filtering _ _ _ "stale" rfl).1 (by decide),
   (startup_filtering _ _ _ "general" rfl).2 (by decide)⟩

/-- JS string interpolation of a possibly-`undefined` value:
`` `${x}` `` yields the text `"undefined"` when `x` is `undefined`. -/
def jsStr : Option String → String
  | some s => s
  | none => "undefined"

/-- One exported line (App.js lines 100–101):
`[${timestamp}] ${msg.role === 'user' ? 'You' : 'AI'}: ${msg.content}`.
`fmt` is `ts => new Date(ts).toLocaleString()` for the fixed ambient
locale. -/
def exportLine (fmt : String → String) (m : Message) : String :=
  "[" ++ fmt m.timestamp ++ "] " ++
    (if m.role = Role.user then "You" else "AI") ++ ": " ++ jsStr m.content

/-- The document produced by `exportAsTXT` (App.js lines 96–102): `none`
when no section is active (early return, line 97); otherwise the mapped
lines of `chatHistory[currentSection.id] || []` joined by `'\n\n'`.  The
function only reads the transcript; it returns a string and leaves the
state untouched. -/
def exportAsTXT (fmt : String → String) (s : AppState) : Option String :=
  s.currentSection.map (fun sec =>
    String.intercalate "\n\n" ((histAt s.chatHistory sec.id).map (exportLine fmt)))

/-- Modelled from the spec: `exportText` turns each Message into one block
`[<formatted local timestamp>] <role label>: <content>`, blocks separated
by a blank line, in transcript order (the role labels observed are "You"
and "AI"). -/
def specExportText (fmt : String → String) (hist : List Message) : String :=
  String.intercalate "\n\n"
    (hist.map (fun m =>
      "[" ++ fmt m.timestamp ++ "] " ++
        (if m.role = Role.user then "You" else "AI") ++ ": " ++ jsStr m.content))

/-- C9: `exportText` is a pure function of the section's transcript alone —
any two states agreeing on the active section's transcript export the same
document — and that document is exactly the spec's block format: one block
per message, in transcript order, blocks separated by a blank line.
Determinism over repeated calls with no intervening mutation is immediate
since the function reads nothing but the transcript and mutates nothing. -/
theorem export_text_of_transcript (fmt : String → String) (s t : AppState)
    (sec : Section) (hs : s.currentSection = some sec)
    (ht : t.currentSection = some sec)
    (hagree : histAt s.chatHistory sec.id = histAt t.chatHistory sec.id) :
    exportAsTXT fmt s = exportAsTXT fmt t ∧
    exportAsTXT fmt s =
      some (specExportText fmt (histAt s.chatHistory sec.id)) := by
  constructor
  · simp [exportAsTXT, hs, ht, hagree]
  · simp only [exportAsTXT, hs, Option.map_some']
    rfl

/-- Witness for `export_text_of_transcript`: two states sharing a transcript
(one mid-request) export the identical two-block document. -/
theorem export_text_of_transcript_witness :
    let h0 : HistMap :=
      fun k => if k = "general"
               then some [⟨Role.user, some "hi", "t0"⟩,
                          ⟨Role.assistant, some "yo", "t1"⟩]
               else none
    let s0 : AppState := ⟨some generalSec, "", false, false, none, h0⟩
    let t0 : AppState := ⟨some generalSec, "next", true, true, none, h0⟩
    exportAsTXT (fun ts => ts) s0 = exportAsTXT (fun ts => ts) t0 ∧
    exportAsTXT (fun ts => ts) s0 =
      some (specExportText (fun ts => ts) (histAt s0.chatHistory "general")) :=
  export_text_of_transcript (fun ts => ts) _ _ generalSec rfl rfl rfl

/-- C3 counterexample.  The spec's MalformedResponseError ("success status
but payload missing required fields") is *not* treated as a failure by the
code: a 200 response whose parsed body lacks both `redirect` and `response`
takes the success path (App.js lines 197–203) and appends an assistant
message whose content is the JS `undefined` — contradicting "no assistant
message has been appended" for malformed payloads.  (The transcript also
shows the user message twice: the optimistic append of lines 161–164 and
the success-path append of lines 200–203 both include `userMessage`.) -/
theorem malformed_payload_appends_assistant :
    let s0 : AppState := ⟨some generalSec, "hi", false, false, none, emptyHist⟩
    let r := handleSubmit "t1" "t2" (RemoteOutcome.ok ⟨false, none, none⟩) s0
    histAt r.state.chatHistory "general" =
      [⟨Role.user, some "hi", "t1"⟩, ⟨Role.user, some "hi", "t1"⟩,
       ⟨Role.assistant, none, "t2"⟩] ∧
    r.state.error = none := by
  decide

/-- Handler `handleSectionSelect` (App.js lines 62–68): activate a section, clear
the prompt and the error. -/
def handleSectionSelect (sec : Section) (s : AppState) : AppState :=
  { s with currentSection := some sec, prompt := "", error := none }

/-- The two persistence `useEffect`s (App.js lines 50–60) as they run after
a render commit: the section effect writes `currentSection.id` only when a
section is active (line 52 guards on `currentSection`); the history effect
always rewrites the serialized full mapping. -/
def persistEffects (s : AppState) (st : Storage) : Storage :=
  { savedSection :=
      match s.currentSection with
      | some sec => some sec.id
      | none => st.savedSection,
    savedChat := some s.chatHistory }

/-- The client together with its durable store. -/
structure World where
  app : AppState
  store : Storage

/-- One render commit followed by its effect pass: React runs passive
effects after the handler that scheduled the state update has returned and
the commit is rendered, but before any subsequent user operation is
processed. -/
def commitEffects (w : World) : World :=
  { w with store := persistEffects w.app w.store }

/-- A world whose durable store is in sync with a one-message "general"
transcript. -/
def c4Hist : HistMap :=
  fun k => if k = "general" then some [⟨Role.user, some "hi", "t0"⟩] else none

/-- The world of `c4Hist` right after the `clearChat` call has returned:
the React state is updated, the effect pass has not yet run. -/
def c4WorldAfterClear : World :=
  let w0 : World :=
    ⟨⟨some generalSec, "", false, false, none, c4Hist⟩, ⟨some "general", some c4Hist⟩⟩
  { w0 with app := clearChat w0.app }

/-- C4 counterexample.  A mutating operation does *not* synchronously
persist before returning: `clearChat` only schedules a state update
(`setChatHistory`, App.js line 86) and returns; the `localStorage.setItem`
on line 59 lives in a `useEffect` that runs only after the commit.  In a
world whose store is in sync, the store right after the `clearChat` call
returns (before the effect pass) does not hold the updated mapping. -/
theorem clear_not_synchronously_persisted :
    c4WorldAfterClear.store.savedChat ≠ some c4WorldAfterClear.app.chatHistory := by
  intro hEq
  have h1 : c4Hist = c4WorldAfterClear.app.chatHistory := Option.some.inj hEq
  have h2 := congrFun h1 "general"
  revert h2
  decide

/-- C4 amended: persistence is write-through at commit granularity, not
synchronous within the mutating call.  After the effect pass that follows
any mutating operation (clear, submit, section switch) — which runs before
the next operation — the durable store holds the serialized full mapping,
and the saved section id matches the active section whenever one is active
(when none is active the section record is left as it was, line 52). -/
theorem persistence_write_through_at_commit (w : World) (sec : Section)
    (ts1 ts2 : String) (out : RemoteOutcome) :
    ((commitEffects { w with app := clearChat w.app }).store.savedChat
        = some (clearChat w.app).chatHistory) ∧
    ((commitEffects
        { w with app := (handleSubmit ts1 ts2 out w.app).state }).store.savedChat
        = some (handleSubmit ts1 ts2 out w.app).state.chatHistory) ∧
    ((commitEffects
        { w with app := handleSectionSelect sec w.app }).store.savedChat
        = some (handleSectionSelect sec w.app).chatHistory) ∧
    ((commitEffects
        { w with app := handleSectionSelect sec w.app }).store.savedSection
        = some sec.id) ∧
    (w.app.currentSection = none →
      (commitEffects w).store.savedSection = w.store.savedSection) := by
  refine ⟨rfl, rfl, rfl, rfl, fun h => ?_⟩
  simp [commitEffects, persistEffects, h]

/-- Witness for `persistence_write_through_at_commit` at a concrete world. -/
theorem persistence_write_through_at_commit_witness :
    let w0 : World := ⟨⟨none, "", false, false, none, emptyHist⟩, ⟨none, none⟩⟩
    ((commitEffects { w0 with app := clearChat w0.app }).store.savedChat
        = some (clearChat w0.app).chatHistory) ∧
    ((commitEffects
        { w0 with app := (handleSubmit "t1" "t2" RemoteOutcome.transportError
            w0.app).state }).store.savedChat
        = some (handleSubmit "t1" "t2" RemoteOutcome.transportError
            w0.app).state.chatHistory) ∧
    ((commitEffects
        { w0 with app := handleSectionSelect generalSec w0.app }).store.savedChat
        = some (handleSectionSelect generalSec w0.app).chatHistory) ∧
    ((commitEffects
        { w0 with app := handleSectionSelect generalSec w0.app }).store.savedSection
        = some generalSec.id) ∧
    (w0.app.currentSection = none →
      (commitEffects w0).store.savedSection = w0.store.savedSection) :=
  persistence_write_through_at_commit _ generalSec "t1" "t2"
    RemoteOutcome.transportError

/-- The local state of one `TypingAnimation` instance (App.js lines
230–245) together with its `text` prop, plus whether the timeout scheduled
by its latest effect run is still pending (not yet fired, not cleared). -/
structure TypingState where
  text : String
  displayedText : String
  currentIndex : Nat
  timer : Bool
deriving DecidableEq, Repr

/-- JS `text[i]`: a one-character string, or `undefined` out of range. -/
def jsCharAt (s : String) (i : Nat) : Option String :=
  (s.data.get? i).map (fun c => String.singleton c)

/-- The effect body (App.js lines 234–241): while `currentIndex <
text.length` it schedules a 20 ms timeout. -/
def typingEffect (t : TypingState) : TypingState :=
  if t.currentIndex < t.text.data.length then { t with timer := true } else t

/-- The effect cleanup (App.js line 240): `clearTimeout(timer)`.  JS
guarantees a cleared timeout's callback never runs; that guarantee is the
`timer` guard on `typingTick`. -/
def typingCleanup (t : TypingState) : TypingState :=
  { t with timer := false }

/-- The timeout callback (App.js lines 236–239): append
`text[currentIndex]` to `displayedText` and advance the index.  It fires
only while the timeout is still pending. -/
def typingTick (t : TypingState) : TypingState :=
  if t.timer then
    { t with displayedText := t.displayedText ++ jsStr (jsCharAt t.text t.currentIndex),
             currentIndex := t.currentIndex + 1,
             timer := false }
  else t

/-- The whole UI: the `App` state plus the mounted `TypingAnimation`
instance, when one is revealing. -/
structure UIState where
  app : AppState
  typing : Option TypingState

/-- A new submission: `handleSubmit` runs and its `setState` calls
re-render `App`.  `TypingAnimation` is declared inside `App` (line 230), so
its identity changes across renders; React therefore unmounts the prior
instance and runs its effect cleanup — `clearTimeout` — before anything
else happens to it. -/
def uiSubmit (ts1 ts2 : String) (out : RemoteOutcome) (u : UIState) : UIState :=
  { app := (handleSubmit ts1 ts2 out u.app).state,
    typing := u.typing.map typingCleanup }

theorem get?_stable_of_pre {l1 l2 : List Message} (h : l1 <+: l2) {i : Nat}
    {m : Message} (hm : l1.get? i = some m) : l2.get? i = some m := by
  obtain ⟨t, rfl⟩ := h
  rw [List.get?_append (List.get?_eq_some.mp hm).1]
  exact hm

/-- C6: reveal interruption safety.  Starting a new submit while a reveal
is in progress runs the prior instance's cleanup: its pending timer is
cleared, and a tick of the cancelled reveal is a strict no-op (the guard
models JS's guarantee that a cleared timeout never fires), so no stale
callback can alter anything.  The cancellation itself touches no
transcript, and the already-persisted messages — in particular the full
text of the one being revealed — survive the submit unchanged at their
positions. -/
theorem reveal_interruption_safety (u : UIState) (t : TypingState)
    (ts1 ts2 : String) (out : RemoteOutcome) (ht : u.typing = some t) :
    (uiSubmit ts1 ts2 out u).typing = some (typingCleanup t) ∧
    (typingCleanup t).timer = false ∧
    typingTick (typingCleanup t) = typingCleanup t ∧
    (typingCleanup t).displayedText = t.displayedText ∧
    (∀ id i m, (histAt u.app.chatHistory id).get? i = some m →
      (histAt (uiSubmit ts1 ts2 out u).app.chatHistory id).get? i = some m) := by
  refine ⟨by simp [uiSubmit, ht], rfl, by simp [typingTick, typingCleanup],
    rfl, fun id i m hm => ?_⟩
  exact get?_stable_of_pre (histAt_submit_pre ts1 ts2 out u.app id) hm

/-- Witness for `reveal_interruption_safety`: a reveal two characters in,
interrupted by a new submission. -/
theorem reveal_interruption_safety_witness :
    let t0 : TypingState := ⟨"Hello", "He", 2, true⟩
    let h0 : HistMap :=
      fun k => if k = "general"
               then some [⟨Role.assistant, some "Hello", "t0"⟩] else none
    let u0 : UIState := ⟨⟨some generalSec, "next", false, true, none, h0⟩, some t0⟩
    (uiSubmit "t1" "t2" RemoteOutcome.transportError u0).typing
        = some (typingCleanup t0) ∧
    (typingCleanup t0).timer = false ∧
    typingTick (typingCleanup t0) = typingCleanup t0 ∧
    (typingCleanup t0).displayedText = t0.displayedText ∧
    (∀ id i m, (histAt u0.app.chatHistory id).get? i = some m →
      (histAt (uiSubmit "t1" "t2" RemoteOutcome.transportError
          u0).app.chatHistory id).get? i = some m) :=
  reveal_interruption_safety _ _ "t1" "t2" RemoteOutcome.transportError rfl
